import Mathlib

/-!
# Verification of the littr.go client repository layer

A shallow embedding of the repository layer of the littr.go application
(`app/repository.go` and the ActivityPub conversion code), together with
theorems settling the specification claims about it.

Machine strings are modelled as `List Char` where character-level counting
matters and as `String` elsewhere; byte slices (`Hash`) as `List Nat`;
timestamps as `Int`; fallible operations return `Except Err`.
-/

set_option maxRecDepth 8000

namespace Littr

abbrev Err := String
abbrev IRI := String

/-! ## Word-count heuristic of `loadAPItem` (src/app/repository.go:145-182)

`loadAPItem` classifies a non-URL item as `Article` or `Note` by computing

    wordCount := strings.Count(item.Data, " ") + strings.Count(item.Data, "\t") +
                 strings.Count(item.Data, "\n") + strings.Count(item.Data, "\r\n")

and comparing `wordCount > 300`.
-/

inductive MimeT where
  | url
  | markdown
  | text
  | html
  | other (s : String)
deriving DecidableEq, Repr

inductive APType where
  | page
  | article
  | note
deriving DecidableEq, Repr

/-- `strings.Count(s, string(c))` for a single character `c`:
the number of occurrences of `c` in `s`. -/
def countChar (c : Char) : List Char → Nat
  | [] => 0
  | x :: rest => (if x = c then 1 else 0) + countChar c rest

/-- `strings.Count(s, "\r\n")`: the number of non-overlapping occurrences
of the two-character sequence CR LF in `s`. -/
def countCRLF : List Char → Nat
  | '\r' :: '\n' :: rest => 1 + countCRLF rest
  | _ :: rest => countCRLF rest
  | [] => 0

/-- The `wordCount` computed by `loadAPItem` for a non-URL item
(src/app/repository.go:153-156). -/
def wordCount (data : List Char) : Nat :=
  countChar ' ' data + countChar '\t' data + countChar '\n' data + countCRLF data

/-- Spec-side notion (from the claim's words, not from the source): a
character is a whitespace delimiter. -/
def isWsChar (c : Char) : Bool :=
  c = ' ' || c = '\t' || c = '\n' || c = '\r'

mutual

/-- Spec-side notion (from the claim's words, not from the source): the
number of whitespace-delimited tokens of a string, i.e. the number of
maximal non-empty runs of non-whitespace characters. -/
def tokenCount : List Char → Nat
  | [] => 0
  | c :: rest => if isWsChar c then tokenCount rest else 1 + tokenRest rest

/-- Helper of `tokenCount`: counting while inside a token. -/
def tokenRest : List Char → Nat
  | [] => 0
  | c :: rest => if isWsChar c then tokenCount rest else tokenRest rest

end

/-- The domain `Item` fields read by the encoding fragment of `loadAPItem`. -/
structure ItemE where
  hash : List Nat
  title : String
  data : List Char
  mimeType : MimeT
  submittedAt : Int
  updatedAt : Int
  deleted : Bool
deriving DecidableEq, Repr

/-- The URL field written by `loadAPItem`: either the item's raw data (URL
items) or the item permalink derived from the hash. -/
inductive UrlRef where
  | direct (s : List Char)
  | permalinkOf (hash : List Nat)
deriving DecidableEq, Repr

/-- A content value written by `loadAPItem`: either the raw data or the
result of rendering the data as Markdown (the renderer is an external
library, modelled as an opaque tag on the input). -/
inductive RContent where
  | plain (d : List Char)
  | markdownHTML (d : List Char)
deriving DecidableEq, Repr

/-- The wire-object fields written by the fragment of `loadAPItem` modelled
here (src/app/repository.go:145-225). -/
structure APObject where
  typ : APType
  url : Option UrlRef
  mediaType : Option MimeT
  content : Option RContent
  sourceContent : Option (List Char)
  sourceMediaType : Option MimeT
  name : Option String
  published : Int
  updated : Int
deriving DecidableEq, Repr

/-- The encoding fragment of `loadAPItem` (src/app/repository.go:145-225),
with the `Article`/`Note` classification abstracted as `classify` so its
influence on the rest of the encoding can be stated.  For URL items the
type is `Page` and the URL is the raw data; otherwise the type comes from
`classify`, the URL is the permalink when the hash is non-empty, and the
content/media-type fields follow the MIME switch of the source.  For a
deleted item the source returns before setting the name
(src/app/repository.go:186-216), so `name` stays unset. -/
def loadAPItemCore (classify : List Char → APType) (item : ItemE) : APObject :=
  let base : APObject :=
    if item.mimeType = MimeT.url then
      { typ := APType.page
        url := some (UrlRef.direct item.data)
        mediaType := none
        content := none
        sourceContent := none
        sourceMediaType := none
        name := none
        published := item.submittedAt
        updated := item.updatedAt }
    else
      let t := classify item.data
      let u : Option UrlRef :=
        if item.hash.length > 0 then some (UrlRef.permalinkOf item.hash) else none
      match item.mimeType with
      | MimeT.markdown =>
        { typ := t
          url := u
          mediaType := some MimeT.html
          content := if item.data ≠ [] then some (RContent.markdownHTML item.data) else none
          sourceContent := if item.data ≠ [] then some item.data else none
          sourceMediaType := some MimeT.markdown
          name := none
          published := item.submittedAt
          updated := item.updatedAt }
      | MimeT.text =>
        { typ := t, url := u, mediaType := some MimeT.text
          content := some (RContent.plain item.data)
          sourceContent := none, sourceMediaType := none, name := none
          published := item.submittedAt, updated := item.updatedAt }
      | MimeT.html =>
        { typ := t, url := u, mediaType := some MimeT.html
          content := some (RContent.plain item.data)
          sourceContent := none, sourceMediaType := none, name := none
          published := item.submittedAt, updated := item.updatedAt }
      | _ =>
        { typ := t, url := u, mediaType := none, content := none
          sourceContent := none, sourceMediaType := none, name := none
          published := item.submittedAt, updated := item.updatedAt }
  if item.deleted then base
  else if item.title ≠ "" then { base with name := some item.title } else base

/-- `loadAPItem` (src/app/repository.go:145-225): the encoding fragment with
the source's actual classification, `Article` iff `wordCount > 300`. -/
def loadAPItem (item : ItemE) : APObject :=
  loadAPItemCore (fun d => if wordCount d > 300 then APType.article else APType.note) item

/-- Erase the type tag of an encoded object (for stating that a choice
affects no other field). -/
def eraseTyp (o : APObject) : APObject :=
  { o with typ := APType.note }

/-- `n+1` words of one letter each, separated by single spaces. -/
def sepData : Nat → List Char
  | 0 => ['a']
  | n + 1 => 'a' :: ' ' :: sepData n

theorem countChar_sepData_space (n : Nat) : countChar ' ' (sepData n) = n := by
  induction n with
  | zero => rfl
  | succ k ih => simp [sepData, countChar, ih]; omega

theorem countChar_sepData_tab (n : Nat) : countChar '\t' (sepData n) = 0 := by
  induction n with
  | zero => rfl
  | succ k ih => simp [sepData, countChar, ih]

theorem countChar_sepData_nl (n : Nat) : countChar '\n' (sepData n) = 0 := by
  induction n with
  | zero => rfl
  | succ k ih => simp [sepData, countChar, ih]

theorem countCRLF_sepData (n : Nat) : countCRLF (sepData n) = 0 := by
  induction n with
  | zero => rfl
  | succ k ih => simp [sepData, countCRLF, ih]

theorem wordCount_sepData (n : Nat) : wordCount (sepData n) = n := by
  simp [wordCount, countChar_sepData_space, countChar_sepData_tab,
    countChar_sepData_nl, countCRLF_sepData]

theorem tokenCount_sepData (n : Nat) : tokenCount (sepData n) = n + 1 := by
  induction n with
  | zero => rfl
  | succ k ih => simp [sepData, tokenCount, tokenRest, isWsChar, ih]; omega

/-- A markdown item whose body is 301 one-letter words separated by single
spaces. -/
def itemTokens301 : ItemE :=
  { hash := [1], title := "t", data := sepData 300, mimeType := MimeT.markdown
    submittedAt := 0, updatedAt := 0, deleted := false }


theorem loadAPItemCore_typ (cl : List Char → APType) (item : ItemE)
    (h : item.mimeType ≠ MimeT.url) :
    (loadAPItemCore cl item).typ = cl item.data := by
  rcases item with ⟨h1, t1, d1, m1, s1, u1, del1⟩
  cases m1 <;> cases del1 <;>
    simp_all [loadAPItemCore, eraseTyp] <;> split <;> rfl

theorem eraseTyp_loadAPItemCore (cl₁ cl₂ : List Char → APType) (item : ItemE) :
    eraseTyp (loadAPItemCore cl₁ item) = eraseTyp (loadAPItemCore cl₂ item) := by
  rcases item with ⟨h1, t1, d1, m1, s1, u1, del1⟩
  cases m1 <;> cases del1 <;>
    simp_all [loadAPItemCore, eraseTyp] <;> try split
  all_goals and_intros <;> rfl

/-- C3 counterexample: a markdown item whose body has 301 whitespace-delimited
tokens (separated by single spaces) is encoded with type tag `Note`, not
`Article`, because the source counts separator characters (300 here), not
tokens. -/
theorem C3_counterexample :
    itemTokens301.mimeType ≠ MimeT.url ∧
    tokenCount itemTokens301.data > 300 ∧
    (loadAPItem itemTokens301).typ = APType.note ∧
    ¬((loadAPItem itemTokens301).typ = APType.article ↔
        tokenCount itemTokens301.data > 300) := by
  have htyp : (loadAPItem itemTokens301).typ = APType.note := by
    rw [loadAPItem, loadAPItemCore_typ _ _ (by decide)]
    simp [itemTokens301, wordCount_sepData]
  have htok : tokenCount itemTokens301.data > 300 := by
    simp [itemTokens301, tokenCount_sepData]
  refine ⟨by decide, htok, htyp, ?_⟩
  intro hiff
  have := hiff.mpr htok
  rw [htyp] at this
  exact absurd this (by decide)

/-- C3 (amended): when encoding a non-URL item, the wire type tag is
`Article` exactly when the separator count of the content — occurrences of
space, tab and newline, plus CR-LF pairs, as computed by `wordCount` —
exceeds 300 (not the whitespace-delimited token count); and the
classification affects no other encoded field. -/
theorem C3_article_iff_separator_count (item : ItemE)
    (h : item.mimeType ≠ MimeT.url) :
    ((loadAPItem item).typ = APType.article ↔ wordCount item.data > 300) ∧
    eraseTyp (loadAPItem item) =
      eraseTyp (loadAPItemCore (fun _ => APType.note) item) := by
  constructor
  · rw [loadAPItem, loadAPItemCore_typ _ _ h]
    by_cases hw : wordCount item.data > 300 <;> simp [hw]
  · exact eraseTyp_loadAPItemCore _ _ item

/-- C3 witness: the amended theorem applied at the 301-token markdown item. -/
theorem C3_witness :
    ((loadAPItem itemTokens301).typ = APType.article ↔
      wordCount itemTokens301.data > 300) ∧
    eraseTyp (loadAPItem itemTokens301) =
      eraseTyp (loadAPItemCore (fun _ => APType.note) itemTokens301) :=
  C3_article_iff_separator_count itemTokens301 (by decide)

/-! ## Accounts, hashes and entity equality
(src/app/repository.go:932-934, 521-528) -/

/-- The key material stored in account metadata (`Metadata.Key`): the key
identifier string and whether the private bytes parse as PKCS8
(`x509.ParsePKCS8PrivateKey` succeeding is modelled as a flag on the
input, the parser itself being an external library). -/
structure KeyMeta where
  id : String
  privateParsesPKCS8 : Bool
deriving DecidableEq, Repr

/-- The account metadata fields read by the repository layer. -/
structure AccountMetadata where
  id : IRI
  key : Option KeyMeta
  hasOAuthToken : Bool
deriving DecidableEq, Repr

/-- The domain `Account` fields read by the repository layer.  `logged`
models the `IsLogged` state of the account (the session flag). -/
structure AccountM where
  hash : List Nat
  handle : String
  metadata : Option AccountMetadata
  logged : Bool
deriving DecidableEq, Repr

/-- `Account.HasMetadata`: the metadata pointer is non-nil. -/
def AccountM.hasMetadata (a : AccountM) : Bool :=
  a.metadata.isSome

/-- Modelled from the spec: `Account.IsValid` (its definition is not under
src/) — the validity flag holds when the account "has a non-empty hash or
is one of two well-known sentinel accounts: anonymous, system". -/
def AccountM.isValid (a : AccountM) : Bool :=
  !a.hash.isEmpty || a.handle == "anonymous" || a.handle == "system"

/-- Modelled from the spec: `Account.IsLogged` (its definition is not under
src/) — whether the account is logged in; kept as a state flag on the
account. -/
def AccountM.isLogged (a : AccountM) : Bool :=
  a.logged

/-- Modelled from the spec: `HashesEqual` (its definition is not under
src/) — "an entity's hash is derived deterministically from its wire
identifier; two entities are equal iff hashes are equal", so hash equality
is byte equality. -/
def HashesEqual (h1 h2 : List Nat) : Bool :=
  h1 == h2

/-- `accountsEqual` (src/app/repository.go:932-934):
`bytes.Equal(a1.Hash, a2.Hash) || (len(a1.Handle)+len(a2.Handle) > 0 && a1.Handle == a2.Handle)`. -/
def accountsEqual (a1 a2 : AccountM) : Bool :=
  a1.hash == a2.hash ||
    (decide (a1.handle.length + a2.handle.length > 0) && a1.handle == a2.handle)

/-- `accountInCollection` (src/app/repository.go:521-528): membership by
hash equality only. -/
def accountInCollection (ac : AccountM) (col : List AccountM) : Bool :=
  col.any fun fol => HashesEqual fol.hash ac.hash

/-- An account with hash `[1]` and handle `"x"`. -/
def acctHash1 : AccountM :=
  { hash := [1], handle := "x", metadata := none, logged := false }

/-- An account with hash `[2]` and the same handle `"x"`. -/
def acctHash2 : AccountM :=
  { hash := [2], handle := "x", metadata := none, logged := false }

/-- C8 counterexample: two accounts with distinct non-empty hashes but the
same non-empty handle are considered equal by `accountsEqual` — the handle
fallback is applied unconditionally, not only when hashes are absent. -/
theorem C8_counterexample :
    acctHash1.hash ≠ acctHash2.hash ∧
    acctHash1.hash ≠ [] ∧ acctHash2.hash ≠ [] ∧
    accountsEqual acctHash1 acctHash2 = true := by
  decide

/-- C8 (amended): entity equality by hash — `accountInCollection` matches
solely on hash equality — but `accountsEqual` additionally treats two
accounts as equal whenever their handles are equal and not both empty,
regardless of their hashes (the handle fallback is not restricted to
absent hashes). -/
theorem C8_equality_characterization (a1 a2 ac : AccountM) (col : List AccountM) :
    (accountsEqual a1 a2 = true ↔
      a1.hash = a2.hash ∨ (a1.handle.length + a2.handle.length > 0 ∧ a1.handle = a2.handle)) ∧
    (accountInCollection ac col = true ↔ ∃ fol ∈ col, fol.hash = ac.hash) := by
  constructor
  · simp [accountsEqual]
  · simp [accountInCollection, HashesEqual]

/-- C8 witness: the amended characterization applied at the two concrete
accounts above. -/
theorem C8_witness :
    (accountsEqual acctHash1 acctHash2 = true ↔
      acctHash1.hash = acctHash2.hash ∨
        (acctHash1.handle.length + acctHash2.handle.length > 0 ∧
          acctHash1.handle = acctHash2.handle)) ∧
    (accountInCollection acctHash1 [acctHash2] = true ↔
      ∃ fol ∈ [acctHash2], fol.hash = acctHash1.hash) :=
  C8_equality_characterization acctHash1 acctHash2 acctHash1 [acctHash2]

/-! ## Vote decoding (src/unnamed/part_000:620-667, `Vote.FromActivityPub`) -/

/-- Activity type tags handled by the repository layer. -/
inductive ActTyp where
  | like
  | dislike
  | undo
  | create
  | update
  | delete
  | follow
  | other (s : String)
deriving DecidableEq, Repr

/-- The wire-activity fields read by `Vote.FromActivityPub`: the activity
type, its own identifier (`act.GetLink()`), the identifier of its object
(`act.Object.GetLink()`, the empty string when the object carries no
identifier), the actor, and the timestamps. -/
structure WAct where
  typ : ActTyp
  id : IRI
  objLink : IRI
  actorHash : List Nat
  published : Int
  updated : Int
deriving DecidableEq, Repr

/-- `VoteMetadata`: the IRI of the activity expressing the vote, and — for
retractions — the IRI of the retracted activity (zero value `""`). -/
structure VoteMeta where
  iri : IRI
  originalIRI : IRI
deriving DecidableEq, Repr

/-- The domain `Vote` fields written by `Vote.FromActivityPub`. -/
structure VoteM where
  weight : Int
  itemLink : Option IRI
  submittedByHash : Option (List Nat)
  submittedAt : Int
  updatedAt : Int
  metadata : Option VoteMeta
deriving DecidableEq, Repr

/-- The zero value `Vote{}` used at the decode call sites. -/
def emptyVote : VoteM :=
  { weight := 0, itemLink := none, submittedByHash := none
    submittedAt := 0, updatedAt := 0, metadata := none }

/-- `Vote.FromActivityPub` (src/unnamed/part_000:620-667): for `Undo`,
`Like` and `Dislike` activities, decode item, submitter and timestamps,
record the activity IRI, and set the weight per the type — `Like` sets
`+1`, `Dislike` sets `-1`, `Undo` sets `0` and records the retracted
activity reference (`act.Object.GetLink()`).  Any other type leaves the
vote untouched (and the source returns a nil error). -/
def voteFromActivityPub (v : VoteM) (act : WAct) : VoteM :=
  match act.typ with
  | ActTyp.like | ActTyp.dislike | ActTyp.undo =>
    let v1 : VoteM :=
      { v with
        itemLink := some act.objLink
        submittedByHash := some act.actorHash
        submittedAt := act.published
        updatedAt := act.updated
        metadata := some
          { iri := act.id
            originalIRI := if act.typ = ActTyp.undo then act.objLink else "" } }
    let v2 := if act.typ = ActTyp.like then { v1 with weight := 1 } else v1
    let v3 := if act.typ = ActTyp.dislike then { v2 with weight := -1 } else v2
    if act.typ = ActTyp.undo then { v3 with weight := 0 } else v3
  | _ => v

/-- An `Undo` activity whose object carries no identifier. -/
def undoNoObjAct : WAct :=
  { typ := ActTyp.undo, id := "https://fedbox/activities/7", objLink := ""
    actorHash := [3], published := 0, updated := 0 }

/-- C4 counterexample: decoding an `Undo` whose object has an empty
identifier yields weight `0` but an *empty* `OriginalIRI` — the decoder
copies `act.Object.GetLink()` verbatim, so the retracted-activity
reference is not always non-empty. -/
theorem C4_counterexample :
    (voteFromActivityPub emptyVote undoNoObjAct).weight = 0 ∧
    (voteFromActivityPub emptyVote undoNoObjAct).metadata.map VoteMeta.originalIRI =
      some "" ∧
    ¬ ∃ s, (voteFromActivityPub emptyVote undoNoObjAct).metadata.map
        VoteMeta.originalIRI = some s ∧ s ≠ "" := by
  refine ⟨rfl, rfl, ?_⟩
  rintro ⟨s, hs, hne⟩
  have : s = "" := by
    have h : some s = some "" := by rw [← hs]; rfl
    exact (Option.some.injEq _ _ ▸ h).symm ▸ rfl
  exact hne this

/-- C4 (amended): decoding an `Undo` yields weight `0` and `OriginalIRI`
equal to the retracted activity's identifier — non-empty exactly when that
identifier is non-empty on the wire; `Like` yields `+1`, `Dislike` yields
`-1`; and among the three appreciation types only `Undo` produces weight
`0`. -/
theorem C4_vote_weights (act : WAct) (h : act.objLink ≠ "") :
    ((voteFromActivityPub emptyVote { act with typ := ActTyp.undo }).weight = 0 ∧
      (voteFromActivityPub emptyVote { act with typ := ActTyp.undo }).metadata.map
          VoteMeta.originalIRI = some act.objLink ∧
      (voteFromActivityPub emptyVote { act with typ := ActTyp.undo }).metadata.map
          VoteMeta.originalIRI ≠ some "") ∧
    (voteFromActivityPub emptyVote { act with typ := ActTyp.like }).weight = 1 ∧
    (voteFromActivityPub emptyVote { act with typ := ActTyp.dislike }).weight = -1 ∧
    ∀ t, (t = ActTyp.like ∨ t = ActTyp.dislike ∨ t = ActTyp.undo) →
      ((voteFromActivityPub emptyVote { act with typ := t }).weight = 0 ↔
        t = ActTyp.undo) := by
  refine ⟨⟨?_, ?_, ?_⟩, ?_, ?_, ?_⟩
  · simp [voteFromActivityPub]
  · simp [voteFromActivityPub]
  · simp [voteFromActivityPub, h]
  · simp [voteFromActivityPub]
  · simp [voteFromActivityPub]
  · rintro t (rfl | rfl | rfl) <;> simp [voteFromActivityPub]

/-- A `Like` activity over an object with a real identifier (used to
instantiate the amended vote theorem). -/
def likeAct : WAct :=
  { typ := ActTyp.like, id := "https://fedbox/activities/8"
    objLink := "https://fedbox/objects/1", actorHash := [3]
    published := 0, updated := 0 }

/-- C4 witness: the amended theorem applied at a concrete activity whose
object identifier is non-empty. -/
theorem C4_witness :
    ((voteFromActivityPub emptyVote { likeAct with typ := ActTyp.undo }).weight = 0 ∧
      (voteFromActivityPub emptyVote { likeAct with typ := ActTyp.undo }).metadata.map
          VoteMeta.originalIRI = some likeAct.objLink ∧
      (voteFromActivityPub emptyVote { likeAct with typ := ActTyp.undo }).metadata.map
          VoteMeta.originalIRI ≠ some "") ∧
    (voteFromActivityPub emptyVote { likeAct with typ := ActTyp.like }).weight = 1 ∧
    (voteFromActivityPub emptyVote { likeAct with typ := ActTyp.dislike }).weight = -1 ∧
    ∀ t, (t = ActTyp.like ∨ t = ActTyp.dislike ∨ t = ActTyp.undo) →
      ((voteFromActivityPub emptyVote { likeAct with typ := t }).weight = 0 ↔
        t = ActTyp.undo) :=
  C4_vote_weights likeAct (by decide)


/-! ## Request signing for federated accounts
(src/app/repository.go:439-475, `withAccountS2S` and `getSigner`) -/

/-- The signer built by `getSigner`: the public-key identifier it signs
with and the private key handed to it — `none` models a nil
`crypto.PrivateKey` (the source passes whatever `prv` holds, which stays
nil for key identifiers it never parses). -/
structure SignerM where
  pubKeyID : IRI
  key : Option KeyMeta
deriving DecidableEq, Repr

/-- An entry written through `r.errFn` (logged, not returned). -/
inductive LogEntry where
  | unsupportedKeyType (id : String)
  | keyParseError
deriving DecidableEq, Repr

/-- `withAccountS2S` (src/app/repository.go:439-475).  The Go function
returns only a `client.RequestSignFn` — it has no error channel; `none`
models returning a nil signing function.  Control flow from the source:
not valid or not logged ⇒ nil; no key in the metadata ⇒ nil; `id-rsa` ⇒
parse the private key, on parse failure log and return nil; `id-ecdsa` ⇒
log an unsupported-key-type error and return nil; any other identifier is
never parsed, so the signer is built over a nil private key. -/
def withAccountS2S (a : AccountM) : Option SignerM × List LogEntry :=
  if ¬(a.isValid && a.isLogged) then (none, [])
  else
    match a.metadata with
    | none => (none, [])
    | some m =>
      match m.key with
      | none => (none, [])
      | some k =>
        if k.id = "id-rsa" then
          if k.privateParsesPKCS8 then
            (some { pubKeyID := m.id ++ "#main-key", key := some k }, [])
          else (none, [LogEntry.keyParseError])
        else if k.id = "id-ecdsa" then
          (none, [LogEntry.unsupportedKeyType "id-ecdsa"])
        else
          (some { pubKeyID := m.id ++ "#main-key", key := none }, [])

/-- A logged-in federated account whose stored key uses `id-ecdsa`. -/
def acctEcdsa : AccountM :=
  { hash := [9], handle := "fed"
    metadata := some
      { id := "https://remote/actors/9"
        key := some { id := "id-ecdsa", privateParsesPKCS8 := true }
        hasOAuthToken := false }
    logged := true }

/-- C6 counterexample: for a logged-in account with an `id-ecdsa` key,
`withAccountS2S` does not fail with an error — its return type has no
error channel — it returns a nil signing function (so requests go out
unsigned) and only logs the unsupported-algorithm error. -/
theorem C6_counterexample :
    withAccountS2S acctEcdsa =
      (none, [LogEntry.unsupportedKeyType "id-ecdsa"]) := by
  decide

/-- C6 (amended): for every logged-in account whose key identifier is
`id-ecdsa`, producing the request signer yields no signing function at all
— requests are left unsigned — and the explicit unsupported-algorithm
error is only logged, never returned to the caller; in particular no
signer is ever produced for an `id-ecdsa` key. -/
theorem C6_ecdsa_yields_no_signer (a : AccountM) (m : AccountMetadata) (k : KeyMeta)
    (hv : a.isValid = true) (hl : a.isLogged = true)
    (hm : a.metadata = some m) (hk : m.key = some k) (hid : k.id = "id-ecdsa") :
    withAccountS2S a = (none, [LogEntry.unsupportedKeyType "id-ecdsa"]) := by
  simp [withAccountS2S, hv, hl, hm, hk, hid]

/-- C6 witness: the amended theorem applied at the concrete `id-ecdsa`
account. -/
theorem C6_witness :
    withAccountS2S acctEcdsa =
      (none, [LogEntry.unsupportedKeyType "id-ecdsa"]) :=
  C6_ecdsa_yields_no_signer acctEcdsa
    { id := "https://remote/actors/9"
      key := some { id := "id-ecdsa", privateParsesPKCS8 := true }
      hasOAuthToken := false }
    { id := "id-ecdsa", privateParsesPKCS8 := true }
    (by decide) (by decide) (by decide) (by decide) (by decide)

/-! ## Write operations and account validation
(src/app/repository.go:1518-1582 `SaveVote`, 1646-1648 `accountValidForC2S`,
1666-1740 `SaveItem`) -/

/-- `accountValidForC2S` (src/app/repository.go:1646-1648): only validity
is checked — the `IsLogged` conjunct is commented out in the source. -/
def accountValidForC2S (a : AccountM) : Bool :=
  a.isValid

/-- The `Item` fields read by `SaveVote`/`SaveItem`: hash, the remote
identifier when metadata is present, whether the item is deleted, and the
mention names in its metadata. -/
structure ItemS where
  hash : List Nat
  metadataID : Option IRI
  deleted : Bool
  mentions : List String
deriving DecidableEq, Repr

/-- Modelled from the spec: `Item.IsValid` (its definition is not under
src/) — an item is valid when it has a non-empty content hash. -/
def ItemS.isValid (i : ItemS) : Bool :=
  !i.hash.isEmpty

/-- `Item.HasMetadata` for the save-side item model. -/
def ItemS.hasMetadata (i : ItemS) : Bool :=
  i.metadataID.isSome

/-- The domain `Vote` fields read by `SaveVote`. -/
structure VoteS where
  weight : Int
  submittedBy : AccountM
  item : ItemS
  metadataIRI : Option IRI
deriving DecidableEq, Repr

/-- A network side effect issued by a write operation. -/
inductive NetCall where
  | loadVotes (url : String)
  | loadAccounts
  | toOutbox (typ : ActTyp)
deriving DecidableEq, Repr

/-- `SaveVote` (src/app/repository.go:1518-1582).  `fetchVotes` stands for
the remote likes-collection response and `outboxResp` for the outbox
submission response (indexed by the dispatched activity type); the first
component of the result is the ordered trace of network calls issued.
Control flow from the source: validate submitter, then item, then
`accountValidForC2S`; only then fetch the item's likes collection (a fetch
error is merely logged); if a prior vote by the same submitter exists and
carries metadata, dispatch an `Undo` of it; dispatch `Like` when the new
weight is positive against a non-positive prior, `Dislike` when negative
against a non-negative prior, otherwise the activity stays an `Undo`; the
final outbox error, if any, is returned. -/
def SaveVote (fetchVotes : Except Err (List VoteS)) (outboxResp : ActTyp → Option Err)
    (v : VoteS) : List NetCall × Except Err VoteS :=
  if ¬(v.submittedBy.isValid && v.submittedBy.hasMetadata) then
    ([], Except.error "Invalid vote submitter")
  else if ¬(v.item.isValid && v.item.hasMetadata) then
    ([], Except.error "Invalid vote item")
  else if ¬accountValidForC2S v.submittedBy then
    ([], Except.error ("unauthorized: invalid account " ++ v.submittedBy.handle))
  else
    let url := v.item.metadataID.getD "" ++ "/likes"
    let exists? : Option VoteS :=
      match fetchVotes with
      | Except.ok votes =>
        votes.find? fun vot => vot.submittedBy.hash == v.submittedBy.hash
      | Except.error _ => none
    let undoCalls : List NetCall :=
      match exists? with
      | some e0 => if e0.metadataIRI.isSome then [NetCall.toOutbox ActTyp.undo] else []
      | none => []
    let priorWeight : Int := ((exists?.map VoteS.weight).getD 0)
    let actTyp :=
      if v.weight > 0 && priorWeight ≤ 0 then ActTyp.like
      else if v.weight < 0 && priorWeight ≥ 0 then ActTyp.dislike
      else ActTyp.undo
    let calls := NetCall.loadVotes url :: undoCalls ++ [NetCall.toOutbox actTyp]
    match outboxResp actTyp with
    | some e => (calls, Except.error e)
    | none => (calls, Except.ok v)

/-- `SaveItem` (src/app/repository.go:1666-1740).  `mentionsResp` stands
for the accounts lookup resolving mention names (its error is only
logged) and `outboxResp` for the outbox submission response.  Control
flow from the source: reject a nil or metadata-less submitter, then
reject via `accountValidForC2S`; only then resolve mentions over the
network when the item's metadata carries any, and dispatch a `Delete`
for deleted items, an `Update` when the item already has an identifier,
a `Create` otherwise. -/
def SaveItem (mentionsResp : Except Err (List AccountM)) (outboxResp : ActTyp → Option Err)
    (submittedBy : Option AccountM) (it : ItemS) : List NetCall × Except Err ItemS :=
  match submittedBy with
  | none => ([], Except.error "invalid account")
  | some acc =>
    if ¬acc.hasMetadata then ([], Except.error "invalid account")
    else if ¬accountValidForC2S acc then
      ([], Except.error ("unauthorized: invalid account " ++ acc.handle))
    else
      let mentionCalls : List NetCall :=
        if it.mentions ≠ [] then [NetCall.loadAccounts] else []
      let actTyp :=
        if it.deleted then ActTyp.delete
        else if (it.metadataID.getD "") ≠ "" then ActTyp.update
        else ActTyp.create
      let calls := mentionCalls ++ [NetCall.toOutbox actTyp]
      match outboxResp actTyp with
      | some e => (calls, Except.error e)
      | none => (calls, Except.ok it)

/-- A valid but logged-out account (non-empty hash, metadata present,
`logged = false`). -/
def acctValidNotLogged : AccountM :=
  { hash := [4], handle := "alice"
    metadata := some { id := "https://fedbox/actors/4", key := none, hasOAuthToken := false }
    logged := false }

/-- A valid item with a remote identifier. -/
def itemWithID : ItemS :=
  { hash := [7], metadataID := some "https://fedbox/objects/7"
    deleted := false, mentions := [] }

/-- C5 counterexample: `SaveVote` invoked by a valid but *not logged-in*
account is not rejected — `accountValidForC2S` checks only validity (the
logged-in conjunct is commented out in the source) — so the operation
proceeds to the network: it fetches the likes collection and dispatches an
activity, and succeeds.  The vote below is submitted by the logged-out
account. -/
def voteNotLogged : VoteS :=
  { weight := 1, submittedBy := acctValidNotLogged, item := itemWithID
    metadataIRI := none }

theorem C5_counterexample :
    (SaveVote (Except.ok []) (fun _ => none) voteNotLogged).1 =
      [NetCall.loadVotes "https://fedbox/objects/7/likes",
        NetCall.toOutbox ActTyp.like] ∧
    (SaveVote (Except.ok []) (fun _ => none) voteNotLogged).2 =
      Except.ok voteNotLogged ∧
    acctValidNotLogged.isLogged = false := by
  refine ⟨?_, ?_, by decide⟩ <;> rfl

/-- C5 (amended): a write operation whose acting account is invalid fails
before any network call is issued — `SaveVote` and `SaveItem` return an
error with an empty network trace — but merely logged-out accounts are
not rejected, because `accountValidForC2S` checks only validity. -/
theorem C5_invalid_account_no_network (a : AccountM) (ha : a.isValid = false)
    (fetchVotes : Except Err (List VoteS)) (mentionsResp : Except Err (List AccountM))
    (outboxResp : ActTyp → Option Err) (it : ItemS) (v : VoteS)
    (hv : v.submittedBy = a) :
    ((SaveVote fetchVotes outboxResp v).1 = [] ∧
      ∃ e, (SaveVote fetchVotes outboxResp v).2 = Except.error e) ∧
    ((SaveItem mentionsResp outboxResp (some a) it).1 = [] ∧
      ∃ e, (SaveItem mentionsResp outboxResp (some a) it).2 = Except.error e) := by
  subst hv
  constructor
  · simp [SaveVote, ha]
  · cases hmm : v.submittedBy.hasMetadata <;>
      simp [SaveItem, hmm, accountValidForC2S, ha]

/-- An invalid account: empty hash, non-sentinel handle. -/
def acctInvalid : AccountM :=
  { hash := [], handle := "ghost"
    metadata := some { id := "https://fedbox/actors/0", key := none, hasOAuthToken := false }
    logged := true }

/-- The vote submitted by the invalid account. -/
def voteInvalid : VoteS :=
  { weight := 1, submittedBy := acctInvalid, item := itemWithID
    metadataIRI := none }

/-- C5 witness: the amended theorem applied at the concrete invalid
account. -/
theorem C5_witness :
    ((SaveVote (Except.ok []) (fun _ => none) voteInvalid).1 = [] ∧
      ∃ e, (SaveVote (Except.ok []) (fun _ => none) voteInvalid).2 =
        Except.error e) ∧
    ((SaveItem (Except.ok []) (fun _ => none) (some acctInvalid) itemWithID).1 = [] ∧
      ∃ e, (SaveItem (Except.ok []) (fun _ => none) (some acctInvalid)
          itemWithID).2 = Except.error e) :=
  C5_invalid_account_no_network acctInvalid (by decide) (Except.ok []) (Except.ok [])
    (fun _ => none) itemWithID voteInvalid rfl


/-! ## Item decoding: parent and origin chains
(src/unnamed/part_000:307-404, `FromArticle`) -/

/-- The wire-object fields driving parent/origin reconstruction in
`FromArticle`: the object's identifier, its optional `Context` and its
`InReplyTo` items (empty list models a nil `InReplyTo`). -/
inductive WObj : Type where
  | mk (id : IRI) (context : Option WObj) (inReplyTo : List WObj)

def WObj.idOf : WObj → IRI
  | WObj.mk i _ _ => i

def WObj.contextOf : WObj → Option WObj
  | WObj.mk _ c _ => c

def WObj.inReplyToOf : WObj → List WObj
  | WObj.mk _ _ r => r

/-- The decoded `Item` fields driving the origin claim: the hash (derived
from the wire identifier), the immediate parent and the origin (OP). -/
inductive ItemD : Type where
  | mk (hash : IRI) (parent : Option ItemD) (op : Option ItemD)

def ItemD.hashOf : ItemD → IRI
  | ItemD.mk h _ _ => h

def ItemD.parentOf : ItemD → Option ItemD
  | ItemD.mk _ p _ => p

def ItemD.opOf : ItemD → Option ItemD
  | ItemD.mk _ _ o => o

/-- `FromArticle` (src/unnamed/part_000:307-404), restricted to the
parent/origin logic: the hash comes from the wire identifier; a non-nil
`Context` decodes to `OP`; a non-nil `InReplyTo` decodes its *first*
element to `Parent`, and `OP` defaults to that same immediate parent when
no `Context` was supplied. -/
def FromArticle : WObj → ItemD
  | WObj.mk id ctx irt =>
    let op0 : Option ItemD :=
      match ctx with
      | some c => some (FromArticle c)
      | none => none
    let par : Option ItemD :=
      match irt with
      | [] => none
      | x :: _ => some (FromArticle x)
    let op : Option ItemD :=
      match op0 with
      | some o => some o
      | none => par
    ItemD.mk id par op

/-- The parent chain of a decoded item: the immediate parent, its parent,
and so on. -/
def parentChain : ItemD → List ItemD
  | ItemD.mk _ p _ =>
    match p with
    | some par => par :: parentChain par
    | none => []

/-- A two-level reply: `wB` replies to `wA`, which replies to the root
`wR`; none of them carries a `Context`. -/
def wR : WObj := WObj.mk "https://fedbox/objects/r" none []

def wA : WObj := WObj.mk "https://fedbox/objects/a" none [wR]

def wB : WObj := WObj.mk "https://fedbox/objects/b" none [wA]

/-- C9 counterexample: decoding a reply whose parent chain has two
elements and no explicit `Context` sets `OP` to the *immediate* parent
(the first element of the chain), not to the transitive root (the last
element). -/
theorem C9_counterexample :
    parentChain (FromArticle wB) ≠ [] ∧
    (FromArticle wB).opOf = some (FromArticle wA) ∧
    ((FromArticle wB).opOf.map ItemD.hashOf) = some "https://fedbox/objects/a" ∧
    ((parentChain (FromArticle wB)).getLast?.map ItemD.hashOf) =
      some "https://fedbox/objects/r" ∧
    (FromArticle wB).opOf ≠ (parentChain (FromArticle wB)).getLast? := by
  refine ⟨?_, rfl, rfl, rfl, ?_⟩
  · have hc : parentChain (FromArticle wB) = [FromArticle wA, FromArticle wR] := rfl
    rw [hc]
    simp
  · intro h
    have h2 := congrArg (fun o => Option.map ItemD.hashOf o) h
    have e1 : (FromArticle wB).opOf.map ItemD.hashOf =
        some "https://fedbox/objects/a" := rfl
    have e2 : (parentChain (FromArticle wB)).getLast?.map ItemD.hashOf =
        some "https://fedbox/objects/r" := rfl
    simp only [e1, e2] at h2
    simp at h2

/-- C9 (amended): for a decoded item with a non-empty parent chain and no
wire `Context`, `OP` equals the *immediate* parent — the first element of
the chain — which coincides with the transitive root only when the chain
has length one. -/
theorem C9_origin_is_immediate_parent (w : WObj) (hctx : w.contextOf = none)
    (hrep : w.inReplyToOf ≠ []) :
    (FromArticle w).opOf = (FromArticle w).parentOf ∧
    (FromArticle w).parentOf =
      some (FromArticle (w.inReplyToOf.headD (WObj.mk "" none []))) ∧
    ((parentChain (FromArticle w)).length = 1 →
      (FromArticle w).opOf = (parentChain (FromArticle w)).getLast?) := by
  rcases w with ⟨id, ctx, irt⟩
  simp only [WObj.contextOf] at hctx
  subst hctx
  rcases irt with _ | ⟨x, rest⟩
  · exact absurd rfl hrep
  · refine ⟨rfl, rfl, ?_⟩
    intro hlen
    have hred : parentChain (FromArticle (WObj.mk id none (x :: rest))) =
        FromArticle x :: parentChain (FromArticle x) := rfl
    rw [hred] at hlen ⊢
    have hnil : parentChain (FromArticle x) = [] := by
      cases hq : parentChain (FromArticle x)
      · rfl
      · rw [hq] at hlen
        simp at hlen
    rw [hnil]
    rfl

/-- A one-level reply with no `Context`. -/
def wOne : WObj := WObj.mk "https://fedbox/objects/one" none [wR]

/-- C9 witness: the amended theorem applied at the concrete one-level
reply. -/
theorem C9_witness :
    (FromArticle wOne).opOf = (FromArticle wOne).parentOf ∧
    (FromArticle wOne).parentOf =
      some (FromArticle (wOne.inReplyToOf.headD (WObj.mk "" none []))) ∧
    ((parentChain (FromArticle wOne)).length = 1 →
      (FromArticle wOne).opOf = (parentChain (FromArticle wOne)).getLast?) :=
  C9_origin_is_immediate_parent wOne rfl (fun h => List.noConfusion h)


/-! ## The collection cursor walker
(src/app/repository.go:1096-1136, `LoadFromCollection`) -/

/-- One fetched collection page: its items, the next-page token extracted
from the page's links (`none` models an absent/empty token), and the
collection's declared total size (`col.Count()`). -/
structure ColPage (α : Type) where
  items : List α
  next : Option Nat
  count : Nat

/-- `LoadFromCollection` (src/app/repository.go:1096-1136), fuel-indexed.
`server` is the page-fetch function `f` (pagination tokens modelled as
page indices), `accum` the caller's accumulator returning its stop signal
(the accumulators at the call sites return nil errors, so `accum` is
errorless here); `processed` is the running count and `pages` the pages
handed to the accumulator so far.  Each iteration fetches a page
(propagating a fetch error), hands it to the accumulator, and stops when
the page has no next token, when the running count reaches the declared
total, or when the accumulator signals stop — otherwise it walks on.  The
result is the number of fetches performed, the pages the accumulator was
invoked with, and whether the loop exited by its own break (`false` only
when the fuel ran out). -/
def LoadFromCollection {α : Type} (server : Option Nat → Except Err (ColPage α))
    (accum : List (List α) → Bool) :
    Nat → Option Nat → Nat → List (List α) → Except Err (Nat × List (List α) × Bool)
  | 0, _, _, pages => Except.ok (0, pages, false)
  | fuel + 1, tok, processed, pages =>
    match server tok with
    | Except.error e => Except.error e
    | Except.ok col =>
      if col.next.isNone || (processed + col.items.length == col.count)
          || accum (pages ++ [col.items]) then
        Except.ok (1, pages ++ [col.items], true)
      else
        match LoadFromCollection server accum fuel col.next
            (processed + col.items.length) (pages ++ [col.items]) with
        | Except.error e => Except.error e
        | Except.ok (n, ps, t) => Except.ok (n + 1, ps, t)

/-- An honestly paginated collection of the items `l` with page size `ps`:
page `k` holds the `k`-th chunk, a next token is present exactly while
items remain, and the declared count is the real total. -/
def honestServer {α : Type} (l : List α) (ps : Nat) :
    Option Nat → Except Err (ColPage α) :=
  fun tok =>
    let k := tok.getD 0
    Except.ok
      { items := (l.drop (k * ps)).take ps
        next := if (k + 1) * ps < l.length then some (k + 1) else none
        count := l.length }

/-- C7 counterexample: walking an *empty* collection (declared total `0`,
page size `5`) still performs one page fetch — `ceil(0/5) = 0` fetches
are exceeded — and hands the accumulator that zero-length page. -/
theorem C7_counterexample :
    LoadFromCollection (honestServer ([] : List Nat) 5) (fun _ => false) 3 none 0 [] =
      Except.ok (1, [[]], true) ∧
    (0 + 5 - 1) / 5 < 1 ∧
    ([] : List Nat) ∈ [([] : List Nat)] := by
  refine ⟨rfl, by decide, by simp⟩

theorem walk_honest {α : Type} (l : List α) (ps : Nat) (hps : 0 < ps)
    (accum : List (List α) → Bool) :
    ∀ fuel k (tok : Option Nat) pages, tok.getD 0 = k →
      k * ps < l.length → l.length ≤ k * ps + fuel * ps →
      ∃ n newPages,
        LoadFromCollection (honestServer l ps) accum fuel tok (k * ps) pages =
          Except.ok (n, pages ++ newPages, true) ∧
        1 ≤ n ∧ n ≤ (l.length - k * ps + ps - 1) / ps ∧
        ∀ p ∈ newPages, p ≠ [] := by
  intro fuel
  induction fuel with
  | zero =>
    intro k tok pages htok hk hfuel
    omega
  | succ f ih =>
    intro k tok pages htok hk hfuel
    have hmul1 : (k + 1) * ps = k * ps + ps := by ring
    have hmul2 : (f + 1) * ps = f * ps + ps := by ring
    have hitems : ((l.drop (k * ps)).take ps).length = min ps (l.length - k * ps) := by
      simp [List.length_take, List.length_drop]
    have hchunk : (l.drop (k * ps)).take ps ≠ [] := by
      have : 0 < ((l.drop (k * ps)).take ps).length := by rw [hitems]; omega
      exact List.ne_nil_of_length_pos this
    have hone : 1 ≤ (l.length - k * ps + ps - 1) / ps := by
      rw [Nat.le_div_iff_mul_le hps]
      omega
    by_cases hlt : (k + 1) * ps < l.length
    · have hcl : ((l.drop (k * ps)).take ps).length = ps := by rw [hitems]; omega
      have hbeq : (k * ps + ps == l.length) = false := by
        have : ¬(k * ps + ps = l.length) := by omega
        simpa using this
      cases hst : accum (pages ++ [(l.drop (k * ps)).take ps]) with
      | true =>
        refine ⟨1, [(l.drop (k * ps)).take ps], ?_, le_refl 1, hone, ?_⟩
        · simp [LoadFromCollection, honestServer, htok, hlt, hcl, hbeq, hst]
        · intro p hp
          rw [List.mem_singleton] at hp
          rw [hp]
          exact hchunk
      | false =>
        obtain ⟨n, newPages, heq, hn1, hnb, hne⟩ :=
          ih (k + 1) (some (k + 1)) (pages ++ [(l.drop (k * ps)).take ps]) rfl hlt
            (by omega)
        refine ⟨n + 1, (l.drop (k * ps)).take ps :: newPages, ?_, by omega, ?_, ?_⟩
        · have harg : (k + 1) * ps = k * ps + ps := by ring
          rw [harg] at heq
          simp [LoadFromCollection, honestServer, htok, hlt, hcl, hbeq, hst, heq]
        · have hd : ps < l.length - k * ps := by omega
          have hrw : l.length - (k + 1) * ps + ps - 1 = l.length - k * ps - 1 := by
            have : (k + 1) * ps = k * ps + ps := by ring
            omega
          rw [hrw] at hnb
          have hstep : (l.length - k * ps + ps - 1) / ps =
              (l.length - k * ps - 1) / ps + 1 := by
            have h1 : l.length - k * ps + ps - 1 = (l.length - k * ps - 1) + ps := by
              omega
            rw [h1, Nat.add_div_right _ hps]
          omega
        · intro p hp
          rcases List.mem_cons.mp hp with h | h
          · rw [h]; exact hchunk
          · exact hne p h
    · have hnext : ((if (k + 1) * ps < l.length then some (k + 1) else none) :
          Option Nat) = none := by simp [hlt]
      refine ⟨1, [(l.drop (k * ps)).take ps], ?_, le_refl 1, hone, ?_⟩
      · simp [LoadFromCollection, honestServer, htok, hnext, hlt]
      · intro p hp
        rw [List.mem_singleton] at hp
        rw [hp]
        exact hchunk


/-- C7 (amended): over an honestly paginated collection the walker
terminates, performing at most `max 1 ⌈total/pageSize⌉` page fetches — an
empty collection still costs one fetch, whose page is empty — and when the
collection is non-empty the accumulator is never invoked with a
zero-length page. -/
theorem C7_walker_fetch_bound {α : Type} (l : List α) (ps fuel : Nat)
    (accum : List (List α) → Bool) (hps : 0 < ps) (hfuel1 : 1 ≤ fuel)
    (hfuel : l.length ≤ fuel * ps) :
    ∃ n pages,
      LoadFromCollection (honestServer l ps) accum fuel none 0 [] =
        Except.ok (n, pages, true) ∧
      1 ≤ n ∧ n ≤ max 1 ((l.length + ps - 1) / ps) ∧
      (l ≠ [] → ∀ p ∈ pages, p ≠ []) := by
  rcases List.eq_nil_or_concat l with rfl | hne
  · obtain ⟨f, rfl⟩ : ∃ f, fuel = f + 1 := ⟨fuel - 1, by omega⟩
    refine ⟨1, [[]], ?_, le_refl 1, by simp, by simp⟩
    simp [LoadFromCollection, honestServer]
  · have hl : l ≠ [] := by
      rcases hne with ⟨xs, x, rfl⟩
      simp
    have hlen : 0 < l.length := List.length_pos.mpr hl
    obtain ⟨n, newPages, heq, h1, hb, hne'⟩ :=
      walk_honest l ps hps accum fuel 0 none [] rfl (by omega) (by omega)
    rw [Nat.zero_mul] at heq
    refine ⟨n, newPages, by simpa using heq, h1, ?_, fun _ => hne'⟩
    have : l.length - 0 * ps = l.length := by omega
    rw [this] at hb
    omega

/-- C7 witness: the amended theorem applied at a three-item collection
with page size two (two fetches, both pages non-empty). -/
theorem C7_witness :
    ∃ n pages,
      LoadFromCollection (honestServer [10, 20, 30] 2) (fun _ => false) 2 none 0 [] =
        Except.ok (n, pages, true) ∧
      1 ≤ n ∧ n ≤ max 1 (([10, 20, 30].length + 2 - 1) / 2) ∧
      ([10, 20, 30] ≠ [] → ∀ p ∈ pages, p ≠ []) :=
  C7_walker_fetch_bound [10, 20, 30] 2 2 (fun _ => false) (by decide) (by decide)
    (by decide)

/-! ## Concurrent aggregation
(src/app/repository.go:1138-1167 `accounts`, 1169-1193 `objects`,
1195-1217 `Objects`, 1287-1291 `orderRenderables`, 1293-1516
`ActorCollection`) -/

/-- A `Renderable` as the aggregation code observes it: a content hash and
the `Date()` timestamp used for ordering. -/
structure RenderableM where
  hash : List Nat
  date : Int
deriving DecidableEq, Repr

/-- The comparator of `orderRenderables`: `a` may precede `b` when `a`'s
date is not before `b`'s (`sort.SliceStable` with
`r[i].Date().After(r[j].Date())` orders by non-increasing date). -/
def dateDesc (a b : RenderableM) : Prop :=
  b.date ≤ a.date

instance : DecidableRel dateDesc :=
  fun a b => inferInstanceAs (Decidable (b.date ≤ a.date))

instance : IsTotal RenderableM dateDesc :=
  ⟨fun a b => le_total b.date a.date⟩

instance : IsTrans RenderableM dateDesc :=
  ⟨fun _ _ _ h1 h2 => le_trans h2 h1⟩

/-- `orderRenderables` (src/app/repository.go:1287-1291): a stable sort of
the result list into non-increasing `Date()` order. -/
def orderRenderables (r : List RenderableM) : List RenderableM :=
  List.insertionSort dateDesc r

/-- The `Cursor` returned to callers (src/app/repository.go:1014-1019). -/
structure CursorM where
  after : Option Nat
  before : Option Nat
  items : List RenderableM
  total : Nat
deriving DecidableEq, Repr

/-- `emptyCursor` (src/app/repository.go:1021). -/
def emptyCursor : CursorM :=
  { after := none, before := none, items := [], total := 0 }

/-- One filter set of a concurrent aggregation: its page-fetch function,
its `MaxItems` stop bound, and the walk fuel. -/
structure FilterW (α : Type) where
  server : Option Nat → Except Err (ColPage α)
  maxItems : Nat
  fuel : Nat

/-- The per-filter collection walk run by each errgroup goroutine of
`accounts`/`objects`/`ActorCollection`: a `LoadFromCollection` walk whose
accumulator appends every page and signals stop once `MaxItems` entries
were gathered; the walk's error, if any, is the goroutine's return
value. -/
def filterWalk {α : Type} (f : FilterW α) : Except Err (List α) :=
  match LoadFromCollection f.server
      (fun pages => pages.flatten.length == f.maxItems) f.fuel none 0 [] with
  | Except.error e => Except.error e
  | Except.ok (_, pages, _) => Except.ok pages.flatten

/-- The error of a finished goroutine (`nil` for success). -/
def resErr {γ : Type} : Except Err γ → Option Err
  | Except.error e => some e
  | Except.ok _ => none

/-- The entities a finished goroutine appended to the shared slice. -/
def resVal {γ : Type} : Except Err (List γ) → List γ
  | Except.error _ => []
  | Except.ok xs => xs

/-- `errgroup.Wait` (golang.org/x/sync/errgroup) as used by the
aggregators: the first non-nil goroutine error in completion order
(modelled by list order), `nil` when every goroutine succeeded. -/
def errgroupWait (errs : List (Option Err)) : Option Err :=
  errs.findSome? id

/-- `r.accounts` (src/app/repository.go:1138-1167): one walk per filter
set under an errgroup; if `Wait` reports an error the function returns
`(nil, err)`, dropping everything already gathered, otherwise the merged
account list. -/
def accounts (ff : List (FilterW AccountM)) : Except Err (List AccountM) :=
  let walks := ff.map filterWalk
  match errgroupWait (walks.map resErr) with
  | some e => Except.error e
  | none => Except.ok (walks.map resVal).flatten

/-- `r.objects` (src/app/repository.go:1169-1193): same shape as
`accounts`, over items. -/
def objects (ff : List (FilterW RenderableM)) : Except Err (List RenderableM) :=
  let walks := ff.map filterWalk
  match errgroupWait (walks.map resErr) with
  | some e => Except.error e
  | none => Except.ok (walks.map resVal).flatten

/-- `Objects` (src/app/repository.go:1195-1217): on a walk error it
returns `(emptyCursor, err)`.  Otherwise the source loops
`for _, it := range items` and appends `&it` — the address of the single
range variable — once per item with a non-empty hash; under the module's
pre-Go-1.22 loop semantics every appended `Renderable` aliases that one
variable, which after the loop holds the *last* iterated item.  So the
cursor carries one entry per hash-non-empty item, each observing the last
element of `items`. -/
def Objects (ff : List (FilterW RenderableM)) : CursorM × Option Err :=
  match objects ff with
  | Except.error e => (emptyCursor, some e)
  | Except.ok items =>
    let appended := items.filter fun it => it.hash.length > 0
    let result :=
      match items.getLast? with
      | some last => List.replicate appended.length last
      | none => []
    ({ after := none, before := none, items := result, total := result.length }, none)

/-- `ActorCollection` (src/app/repository.go:1293-1516), reduced to its
aggregation skeleton: one walk per filter set under an errgroup, each
contributing renderables to the shared result list (contributions in
completion order, modelled by filter order); on a `Wait` error it returns
`(emptyCursor, err)`; on success the merged list is passed through
`orderRenderables` before being wrapped in the cursor. -/
def ActorCollection (ff : List (FilterW RenderableM)) : CursorM × Option Err :=
  let walks := ff.map filterWalk
  match errgroupWait (walks.map resErr) with
  | some e => (emptyCursor, some e)
  | none =>
    let sorted := orderRenderables (walks.map resVal).flatten
    ({ after := none, before := none, items := sorted, total := sorted.length }, none)

theorem errgroupWait_of_mem_error {α : Type} (walks : List (Except Err (List α)))
    (h : ∃ w ∈ walks, ∃ e, w = Except.error e) :
    ∃ e, errgroupWait (walks.map resErr) = some e ∧ Except.error e ∈ walks := by
  induction walks with
  | nil => simp at h
  | cons w ws ih =>
    cases w with
    | error e =>
      refine ⟨e, ?_, List.mem_cons_self _ _⟩
      simp [errgroupWait, resErr, List.findSome?]
    | ok xs =>
      have h' : ∃ w ∈ ws, ∃ e, w = Except.error e := by
        rcases h with ⟨w, hw, e, rfl⟩
        rcases List.mem_cons.mp hw with h1 | h1
        · exact absurd h1 (by simp)
        · exact ⟨_, h1, e, rfl⟩
      obtain ⟨e, he, hmem⟩ := ih h'
      refine ⟨e, ?_, List.mem_cons_of_mem _ hmem⟩
      simpa [errgroupWait, resErr, List.findSome?] using he

/-- C1: in every concurrent aggregation — `accounts`, `objects`,
`ActorCollection` — a single failing filter walk makes the whole
aggregation return that walk's error with no partial result:
`accounts`/`objects` return no entity list and `ActorCollection` (and
`Objects`) return the empty cursor. -/
theorem C1_walk_error_aborts_aggregation :
    (∀ ff : List (FilterW AccountM),
      (∃ f ∈ ff, ∃ e, filterWalk f = Except.error e) →
      ∃ e, (∃ f ∈ ff, filterWalk f = Except.error e) ∧
        accounts ff = Except.error e) ∧
    (∀ ff : List (FilterW RenderableM),
      (∃ f ∈ ff, ∃ e, filterWalk f = Except.error e) →
      ∃ e, (∃ f ∈ ff, filterWalk f = Except.error e) ∧
        objects ff = Except.error e ∧
        Objects ff = (emptyCursor, some e)) ∧
    (∀ ff : List (FilterW RenderableM),
      (∃ f ∈ ff, ∃ e, filterWalk f = Except.error e) →
      ∃ e, (∃ f ∈ ff, filterWalk f = Except.error e) ∧
        ActorCollection ff = (emptyCursor, some e)) := by
  refine ⟨?_, ?_, ?_⟩
  · intro ff h
    obtain ⟨e, he, hmem⟩ := errgroupWait_of_mem_error (ff.map filterWalk)
      (by rcases h with ⟨f, hf, e, hfe⟩; exact ⟨filterWalk f, List.mem_map_of_mem _ hf, e, hfe⟩)
    obtain ⟨f, hf, hfe⟩ := List.mem_map.mp hmem
    have he' : errgroupWait (List.map (resErr ∘ filterWalk) ff) = some e := by
      rw [← List.map_map]
      exact he
    exact ⟨e, ⟨f, hf, hfe⟩, by simp [accounts, he']⟩
  · intro ff h
    obtain ⟨e, he, hmem⟩ := errgroupWait_of_mem_error (ff.map filterWalk)
      (by rcases h with ⟨f, hf, e, hfe⟩; exact ⟨filterWalk f, List.mem_map_of_mem _ hf, e, hfe⟩)
    obtain ⟨f, hf, hfe⟩ := List.mem_map.mp hmem
    have he' : errgroupWait (List.map (resErr ∘ filterWalk) ff) = some e := by
      rw [← List.map_map]
      exact he
    refine ⟨e, ⟨f, hf, hfe⟩, by simp [objects, he'], ?_⟩
    simp [Objects, objects, he']
  · intro ff h
    obtain ⟨e, he, hmem⟩ := errgroupWait_of_mem_error (ff.map filterWalk)
      (by rcases h with ⟨f, hf, e, hfe⟩; exact ⟨filterWalk f, List.mem_map_of_mem _ hf, e, hfe⟩)
    obtain ⟨f, hf, hfe⟩ := List.mem_map.mp hmem
    have he' : errgroupWait (List.map (resErr ∘ filterWalk) ff) = some e := by
      rw [← List.map_map]
      exact he
    exact ⟨e, ⟨f, hf, hfe⟩, by simp [ActorCollection, he']⟩

/-- A filter set whose very first page fetch fails. -/
def badFilterA : FilterW AccountM :=
  { server := fun _ => Except.error "transport failure", maxItems := 0, fuel := 1 }

/-- A renderable filter set whose very first page fetch fails. -/
def badFilterR : FilterW RenderableM :=
  { server := fun _ => Except.error "transport failure", maxItems := 0, fuel := 1 }

/-- C1 witness: the aggregation theorem applied at concrete single-filter
aggregations whose walk fails. -/
theorem C1_witness :
    (∃ e, (∃ f ∈ [badFilterA], filterWalk f = Except.error e) ∧
      accounts [badFilterA] = Except.error e) ∧
    (∃ e, (∃ f ∈ [badFilterR], filterWalk f = Except.error e) ∧
      objects [badFilterR] = Except.error e ∧
      Objects [badFilterR] = (emptyCursor, some e)) ∧
    (∃ e, (∃ f ∈ [badFilterR], filterWalk f = Except.error e) ∧
      ActorCollection [badFilterR] = (emptyCursor, some e)) :=
  ⟨C1_walk_error_aborts_aggregation.1 [badFilterA]
      ⟨badFilterA, by simp, "transport failure", rfl⟩,
    C1_walk_error_aborts_aggregation.2.1 [badFilterR]
      ⟨badFilterR, by simp, "transport failure", rfl⟩,
    C1_walk_error_aborts_aggregation.2.2 [badFilterR]
      ⟨badFilterR, by simp, "transport failure", rfl⟩⟩


theorem pairwise_dateDesc_replicate (n : Nat) (x : RenderableM) :
    (List.replicate n x).Pairwise dateDesc := by
  induction n with
  | zero => simp
  | succ k ih =>
    rw [List.replicate_succ, List.pairwise_cons]
    refine ⟨fun y hy => ?_, ih⟩
    rw [List.eq_of_mem_replicate hy]
    exact le_refl x.date

/-- C2: every cursor returned to a caller is ordered by descending entity
timestamp — all adjacent (indeed all) pairs satisfy `dateDesc` —
regardless of the order the concurrent walks delivered their results in.
`ActorCollection` sorts its merged result through `orderRenderables`;
`Objects` never sorts, but because its hash-filter loop appends the
address of the shared range variable, every cursor entry observes the
same (last) item, so its cursor is degenerately in non-increasing date
order as well. -/
theorem C2_cursor_sorted (ff : List (FilterW RenderableM)) :
    ((ActorCollection ff).1).items.Pairwise dateDesc ∧
    ((Objects ff).1).items.Pairwise dateDesc := by
  constructor
  · unfold ActorCollection
    simp only
    cases h : errgroupWait (List.map resErr (List.map filterWalk ff)) with
    | some e => simp [emptyCursor]
    | none => exact List.sorted_insertionSort dateDesc _
  · unfold Objects
    cases hob : objects ff with
    | error e => simp [emptyCursor]
    | ok items =>
      simp only
      cases hl : items.getLast? with
      | none => simp
      | some last =>
        simp only
        exact pairwise_dateDesc_replicate _ last

/-! ## Loading follow requests
(src/app/repository.go:1854-1878, `LoadFollowRequests`) -/

/-- A decoded follow request (the fields `LoadFollowRequests` reads). -/
structure FollowReqM where
  submittedBy : AccountM
deriving DecidableEq, Repr

/-- Modelled from the spec: `FollowRequest.FromActivityPub` (its
definition is not under src/) — decoding a follow activity attaches the
activity's actor as the submitter. -/
def followFromActivityPub (act : WAct) : FollowReqM :=
  { submittedBy :=
      { hash := act.actorHash, handle := "", metadata := none, logged := false } }

/-- `LoadFollowRequests` (src/app/repository.go:1854-1878).  `fetch`
stands for the inbox/activities fetch and `loadAuthors` for
`loadFollowsAuthors` (whose error the source assigns but then discards).
When the fetch fails or yields nothing, the guard `err == nil &&
len(...) > 0` skips the processing block; either way the function returns
`requests, uint(len(requests)), nil` — a literal nil error. -/
def LoadFollowRequests (fetch : Except Err (List WAct)) (followers : List AccountM)
    (loadAuthors : List FollowReqM → List FollowReqM × Option Err) :
    List FollowReqM × Nat × Option Err :=
  match fetch with
  | Except.error _ => ([], 0, none)
  | Except.ok acts =>
    if acts.isEmpty then ([], 0, none)
    else
      let requests := acts.filterMap fun fr =>
        let f := followFromActivityPub fr
        if accountInCollection f.submittedBy followers then none else some f
      let res := loadAuthors requests
      (res.1, res.1.length, none)

/-- C10: `LoadFollowRequests` always returns a nil error — including when
the remote inbox/activities fetch fails, in which case it returns an
empty request list with count zero instead of propagating the transport
error. -/
theorem C10_followRequests_error_swallowed (fetch : Except Err (List WAct))
    (followers : List AccountM)
    (loadAuthors : List FollowReqM → List FollowReqM × Option Err) :
    (LoadFollowRequests fetch followers loadAuthors).2.2 = none ∧
    (∀ e, fetch = Except.error e →
      LoadFollowRequests fetch followers loadAuthors = ([], 0, none)) := by
  constructor
  · cases fetch with
    | error e => rfl
    | ok acts =>
      by_cases h : acts.isEmpty <;> simp [LoadFollowRequests, h]
  · rintro e rfl
    rfl

/-- C10 witness: the theorem applied at a failing fetch. -/
theorem C10_witness :
    LoadFollowRequests (Except.error "transport failure") []
      (fun rs => (rs, none)) = ([], 0, none) :=
  (C10_followRequests_error_swallowed (Except.error "transport failure") []
    (fun rs => (rs, none))).2 "transport failure" rfl


end Littr
